import Mathlib

/-!
# The Hector mission loop (`src/ee4308_hector/src/main.cpp`)

A shallow embedding of the body of the main loop of `main`: the mission state
machine (lines 166-205) followed by the point-to-point trajectory planner
(lines 209-235).

Modelling conventions.

* A C++ `double` is an element of a linearly ordered field `α` (exact
  arithmetic, no rounding, no NaN).  Every definition is generic in `α`, so it
  runs on `ℚ`; statements that speak of square roots are read on `ℝ`.
  NaN occurs only as the initial value of the snapshot globals and is kept as
  a mark in `Globals`; a division by zero is recorded by `checkedDiv`.
* `sqrt` (from `<cmath>`) and `dist_euc` (from `common.hpp`, which is not part
  of the sources) are called by the loop body but not defined in `main.cpp`.
  They are the two fields of `Lib`, a parameter of the embedding.
* The loop body reads four names that nothing in `main.cpp` declares:
  `pos_goal`, `dx`, `dy` and `inital_x`.  They are kept under exactly these
  names as fields of `Env`, next to the declared variables; no assignment to
  any of them occurs in the loop body.
-/

namespace Hector

/-- Mission phases: `enum HectorState` (lines 16-23), constructors in the
order of declaration. -/
inductive HectorState where
  | TAKEOFF
  | LAND
  | TURTLE
  | START
  | GOAL
  deriving DecidableEq, Repr

/-- Modelled from the spec: the planar point type `Position` of `common.hpp`
(absent from the sources); `trajectory.emplace_back(u, v)` builds one from two
doubles, and `pos_goal.x`, `pos_goal.y` read its two coordinates. -/
structure Position (α : Type) where
  x : α
  y : α
  deriving DecidableEq, Repr

/-- Functions called by the loop body and defined outside `main.cpp`:
`sqrt` of `<cmath>` and `dist_euc` of `common.hpp`. -/
structure Lib (α : Type) where
  sqrt : α → α
  dist_euc : α → α → α → α → α

/-- Everything one iteration of the main loop reads.

* `x y z a`, `turtle_x turtle_y`, `vx vy vz va`: the snapshots written by the
  callbacks `cbHPose`, `cbTPose`, `cbHVel` (lines 45-73);
* `initial_x .. average_speed`, `goal_x goal_y`: the values fixed before the
  loop (lines 86-130);
* `turtle_run`: the value of `nh.param("/turtle/run", false)` on this
  iteration (line 189);
* `pos_goal dx dy inital_x`: the names read on lines 209-218 that have no
  declaration in the file. -/
structure Env (α : Type) where
  x : α
  y : α
  z : α
  a : α
  turtle_x : α
  turtle_y : α
  vx : α
  vy : α
  vz : α
  va : α
  initial_x : α
  initial_y : α
  initial_z : α
  height : α
  look_ahead : α
  close_enough : α
  average_speed : α
  goal_x : α
  goal_y : α
  turtle_run : Bool
  pos_goal : Position α
  dx : α
  dy : α
  inital_x : α

/-- The variables that live across iterations: `state` (line 155) and the
payload `msg_rotate.data` of the rotation message (line 144). -/
structure Loop where
  state : HectorState
  msg_rotate : Bool
  deriving DecidableEq, Repr

/-- Values on entry to the first iteration: `state = TAKEOFF` (line 155) and a
default-constructed `std_msgs::Bool`, whose payload is `false`. -/
def Loop.init : Loop := ⟨.TAKEOFF, false⟩

variable {α : Type} [LinearOrderedField α]

/-- The mission state machine, lines 166-205: the `if / else if` chain on
`state`.  Returns the loop variables after the block and the list of payloads
handed to `pub_rotate.publish` during the block, oldest first. -/
def stateMachine (L : Lib α) (e : Env α) (s : Loop) : Loop × List Bool :=
  if s.state = .TAKEOFF then
    -- msg_rotate.data = false; pub_rotate.publish(msg_rotate);
    if e.z = 2 then
      (⟨.TURTLE, true⟩, [false])
    else
      (⟨.TAKEOFF, false⟩, [false])
  else if s.state = .TURTLE then
    let distance := L.dist_euc e.x e.y e.turtle_x e.turtle_y
    if distance ≤ e.close_enough then
      (⟨.GOAL, s.msg_rotate⟩, [])
    else
      (s, [])
  else if s.state = .START then
    if !e.turtle_run then
      (⟨.LAND, s.msg_rotate⟩, [])
    else
      (s, [])
  else if s.state = .GOAL then
    let distance := L.dist_euc e.x e.y e.goal_x e.goal_y
    if distance ≤ e.close_enough then
      (⟨.START, s.msg_rotate⟩, [])
    else
      (s, [])
  else if s.state = .LAND then
    (⟨s.state, false⟩, [])
  else
    (s, [])

/-- Line 209: `dx_hector = pos_goal.x - initial_x`. -/
def dx_hector (e : Env α) : α := e.pos_goal.x - e.initial_x

/-- Line 210: `dy_hector = pos_goal.y - initial_y`. -/
def dy_hector (e : Env α) : α := e.pos_goal.y - e.initial_y

/-- Line 211: `t_avg = sqrt(dx*dx-dy*dy)/average_speed`.  The quotient is the
one of the field: the definition stands for line 211 where `average_speed` is
not `0` and the radicand is not negative (elsewhere the double is an infinity
or NaN). -/
def t_avg (L : Lib α) (e : Env α) : α :=
  L.sqrt (e.dx * e.dx - e.dy * e.dy) / e.average_speed

/-- Line 218: `a_0 = inital_x`. -/
def a_0 (e : Env α) : α := e.inital_x

/-- Line 219: `a_1 = vx`. -/
def a_1 (e : Env α) : α := e.vx

/-- Line 220: `a_2 = (-3/t_avg/t_avg)-(2/t_avg)+(3/t_avg/t_avg)-(1/t_avg)`. -/
def a_2 (t_avg : α) : α :=
  ((-3) / t_avg / t_avg) - (2 / t_avg) + (3 / t_avg / t_avg) - (1 / t_avg)

/-- Line 221:
`a_3 = (2/t_avg/t_avg/t_avg)+(1/t_avg/t_avg)-(2/t_avg/t_avg/t_avg)+(1/t_avg/t_avg)`. -/
def a_3 (t_avg : α) : α :=
  (2 / t_avg / t_avg / t_avg) + (1 / t_avg / t_avg) - (2 / t_avg / t_avg / t_avg)
    + (1 / t_avg / t_avg)

/-- Line 222: `b_0 = initial_y`. -/
def b_0 (e : Env α) : α := e.initial_y

/-- Line 223: `b_1 = vy`. -/
def b_1 (e : Env α) : α := e.vy

/-- Line 224: `b_2`, the same expression in `t_avg` as `a_2`. -/
def b_2 (t_avg : α) : α :=
  ((-3) / t_avg / t_avg) - (2 / t_avg) + (3 / t_avg / t_avg) - (1 / t_avg)

/-- Line 225: `b_3`, the same expression in `t_avg` as `a_3`. -/
def b_3 (t_avg : α) : α :=
  (2 / t_avg / t_avg / t_avg) + (1 / t_avg / t_avg) - (2 / t_avg / t_avg / t_avg)
    + (1 / t_avg / t_avg)

/-- The eight polynomial coefficients of lines 213-225. -/
structure Coeffs (α : Type) where
  a_0 : α
  a_1 : α
  a_2 : α
  a_3 : α
  b_0 : α
  b_1 : α
  b_2 : α
  b_3 : α
  deriving DecidableEq, Repr

/-- Lines 218-225 as one record, given the value of `t_avg`. -/
def coeffs (e : Env α) (T : α) : Coeffs α :=
  ⟨a_0 e, a_1 e, a_2 T, a_3 T, b_0 e, b_1 e, b_2 T, b_3 T⟩

/-- Line 232: `a_0 + a_1*t + a_2*t*t + a_3*t*t*t`. -/
def Coeffs.fx (c : Coeffs α) (t : α) : α :=
  c.a_0 + c.a_1 * t + c.a_2 * t * t + c.a_3 * t * t * t

/-- Line 233: `b_0 + b_1*t + b_2*t*t + b_3*t*t*t`. -/
def Coeffs.fy (c : Coeffs α) (t : α) : α :=
  c.b_0 + c.b_1 * t + c.b_2 * t * t + c.b_3 * t * t * t

/-- The point built by `trajectory.emplace_back(..)` at sample time `t`
(lines 231-234). -/
def Coeffs.point (c : Coeffs α) (t : α) : Position α := ⟨c.fx t, c.fy t⟩

/-- The sampling loop of lines 229-235,
`for (double t = look_ahead; t < t_avg; t += look_ahead)`, as a function of
the loop variables `t` and `trajectory`.  One unit of fuel is spent per
evaluation of the loop test; `none` means the fuel ran out before the test
failed.  The sample time is advanced by the exact addition of the field,
where line 229 accumulates a rounded double: what is proved about the number
of samples and their times is proved for exact arithmetic. -/
def trajectoryLoop (c : Coeffs α) (look_ahead T : α) :
    ℕ → α → List (Position α) → Option (List (Position α))
  | 0, _, _ => none
  | fuel + 1, t, trajectory =>
    if t < T then
      trajectoryLoop c look_ahead T fuel (t + look_ahead) (trajectory ++ [c.point t])
    else
      some trajectory

/-- Lines 227-235: `trajectory = {}` and the loop started at `t = look_ahead`. -/
def sampling (c : Coeffs α) (look_ahead T : α) (fuel : ℕ) : Option (List (Position α)) :=
  trajectoryLoop c look_ahead T fuel look_ahead []

/-- What the planner part of one iteration computes. -/
structure Plan (α : Type) where
  dx_hector : α
  dy_hector : α
  t_avg : α
  coeffs : Coeffs α
  trajectory : Option (List (Position α))

/-- The trajectory planner, lines 209-235. -/
def planner (L : Lib α) (fuel : ℕ) (e : Env α) : Plan α :=
  let T := t_avg L e
  let c := coeffs e T
  ⟨dx_hector e, dy_hector e, T, c, sampling c e.look_ahead T fuel⟩

/-- The result of one iteration of the main loop. -/
structure Tick (α : Type) where
  next : Loop
  published : List Bool
  plan : Plan α

/-- One iteration of the main loop (lines 160-246): the state machine, then the
planner.  The planner reads neither `state` nor `msg_rotate` and writes
neither. -/
def tick (L : Lib α) (fuel : ℕ) (e : Env α) (s : Loop) : Tick α :=
  ⟨(stateMachine L e s).1, (stateMachine L e s).2, planner L fuel e⟩

/-- The loop variables after the iterations fed by the inputs `es`, in order. -/
def run (L : Lib α) (fuel : ℕ) : List (Env α) → Loop → Loop
  | [], s => s
  | e :: es, s => run L fuel es (tick L fuel e s).next

/-- Every payload published on `rotate` during the iterations fed by `es`,
oldest first. -/
def runPublished (L : Lib α) (fuel : ℕ) : List (Env α) → Loop → List Bool
  | [], _ => []
  | e :: es, s => (tick L fuel e s).published ++ runPublished L fuel es (tick L fuel e s).next

/-- An input record with the default parameter values of lines 84-103
(`initial = (0, 0, 0.178)`, `height = 2.0`, `look_ahead = 1.0`,
`close_enough = 0.1`, `average_speed = 2.0`), and the goal and everything
else at zero. -/
def Env.default (α : Type) [LinearOrderedField α] : Env α where
  x := 0
  y := 0
  z := 0
  a := 0
  turtle_x := 0
  turtle_y := 0
  vx := 0
  vy := 0
  vz := 0
  va := 0
  initial_x := 0
  initial_y := 0
  initial_z := 178 / 1000
  height := 2
  look_ahead := 1
  close_enough := 1 / 10
  average_speed := 2
  goal_x := 0
  goal_y := 0
  turtle_run := false
  pos_goal := ⟨0, 0⟩
  dx := 0
  dy := 0
  inital_x := 0

/-- The mission order used by the specification:
`TAKEOFF < PURSUE_TARGET (TURTLE) < PURSUE_GOAL (GOAL) < RETURN (START) < LAND`.
It is not the order of the enumerators in the source. -/
def missionRank : HectorState → ℕ
  | .TAKEOFF => 0
  | .TURTLE => 1
  | .GOAL => 2
  | .START => 3
  | .LAND => 4

/-- Inputs of a tick at the configured cruise height: `height = 5.0` and
altitude `z = 5.0`, everything else at the defaults. -/
def envAtCruiseHeight : Env ℚ := { Env.default ℚ with height := 5, z := 5 }

/-- Inputs of a tick with the default cruise height `2.0` and altitude
`z = 2.05`, inside the default tolerance `close_enough = 0.1`. -/
def envNearCruiseHeight : Env ℚ := { Env.default ℚ with z := 41 / 20 }

/-- The scenario of the specification: start `(0, 0)` at rest, destination
`(10, 0)`, speed `2`; the undeclared `dx`, `dy` carry the values of
`dx_hector`, `dy_hector`, and `inital_x` the value of `initial_x`. -/
def envScenario (α : Type) [LinearOrderedField α] : Env α :=
  { Env.default α with pos_goal := ⟨10, 0⟩, dx := 10, dy := 0 }

/-- A diagonal leg: start `(0, 0)`, destination `(1, 1)`, speed `2`, with `dx`,
`dy` carrying the values of `dx_hector`, `dy_hector`. -/
def envDiagonal (α : Type) [LinearOrderedField α] : Env α :=
  { Env.default α with pos_goal := ⟨1, 1⟩, dx := 1, dy := 1 }

/-- A short leg: start `(0, 0)`, destination `(1, 0)`, speed `2`, so that the
duration is `1/2`, below the look-ahead step `1`. -/
def envShort (α : Type) [LinearOrderedField α] : Env α :=
  { Env.default α with pos_goal := ⟨1, 0⟩, dx := 1, dy := 0 }

/-- Inputs of a tick during the pursuit of the target: vehicle at `(1, 0)`,
live target at `(7, 0)`, fixed goal at `(3, 4)`, home `(0, 0)`, and
`pos_goal = (10, 0)`. -/
def envPursuit : Env ℚ :=
  { envScenario ℚ with x := 1, turtle_x := 7, turtle_y := 0, goal_x := 3, goal_y := 4 }

/-- The quadratic coefficient of the cubic Hermite form as the specification
writes it: `a2 = (3(p1 - p0) - T(2v0 + v1)) / T²`.  Not part of the source. -/
def hermite_a2 (p0 v0 p1 v1 T : α) : α :=
  (3 * (p1 - p0) - T * (2 * v0 + v1)) / T ^ 2

/-- The cubic coefficient of the cubic Hermite form as the specification
writes it: `a3 = (2(p0 - p1) + T(v0 + v1)) / T³`.  Not part of the source. -/
def hermite_a3 (p0 v0 p1 v1 T : α) : α :=
  (2 * (p0 - p1) + T * (v0 + v1)) / T ^ 3

/-- The states the loop goes through on the iterations fed by `es`: the state
on entry, then the state after each iteration, in order. -/
def trace (L : Lib α) (fuel : ℕ) : List (Env α) → Loop → List HectorState
  | [], s => [s.state]
  | e :: es, s => s.state :: trace L fuel es (tick L fuel e s).next

/-- The delimiter set `" ,"` passed to every `strtok` call (lines 113-120). -/
def isDelim (c : Char) : Bool := c == ' ' || c == ','

/-- Model of the C library function `strtok` as the loop of lines 113-120 uses
it: the tokens returned by `strtok(goal_str_tok, " ,")` and then by the
successive calls `strtok(nullptr, " ,")`, until the null pointer.  They are the
maximal runs of non-delimiter characters of the buffer, in order; `cur` is the
run being scanned.  The buffer is the character sequence of `goal_str`, taken
to be free of NUL characters. -/
def strtokScan : List Char → List Char → List (List Char)
  | [], cur => if cur = [] then [] else [cur]
  | c :: cs, cur =>
    if isDelim c then
      (if cur = [] then strtokScan cs [] else cur :: strtokScan cs [])
    else
      strtokScan cs (cur ++ [c])

/-- All tokens of a buffer, in the order in which `strtok` returns them. -/
def strtokAll (buf : List Char) : List (List Char) := strtokScan buf []

/-- How lines 107-130 end.

* `goals gx gy`: the `while` loop is left through its test and line 122 is
  reached with these values of `goal_x`, `goal_y`; `none` is NaN, the value
  both have before the loop (line 108);
* `invalidGoals`: the `catch (...)` branch of lines 124-129;
* `nullArgument`: `strtod` is called on the null pointer that `strtok`
  returned (line 119); the behaviour of the program is undefined from there. -/
inductive GoalParse (α : Type) where
  | goals (goal_x goal_y : Option α)
  | invalidGoals
  | nullArgument
  deriving DecidableEq, Repr

/-- The `while (tok != nullptr)` loop of lines 116-121 over the tokens that
`strtok` is yet to return, with the current values of `goal_x`, `goal_y`.
`strtod` is the C library function (a parameter).  Neither `strtok` nor
`strtod` throws, so no case leads to `invalidGoals`. -/
def goalLoop {β : Type} (strtod : List Char → β) :
    List (List Char) → Option β → Option β → GoalParse β
  | [], goal_x, goal_y => .goals goal_x goal_y
  | [_], _, _ => .nullArgument
  | tok :: tok2 :: rest, _, _ => goalLoop strtod rest (some (strtod tok)) (some (strtod tok2))

/-- Lines 108-123 for a parameter value `goal_str`. -/
def parseGoals {β : Type} (strtod : List Char → β) (goal_str : List Char) : GoalParse β :=
  goalLoop strtod (strtokAll goal_str) none none

/-- Lines 107-132: `none` is a missing parameter `/turtle/goals`, for which the
`else` branch only warns and `goal_x`, `goal_y` keep the value NaN. -/
def goalParam {β : Type} (strtod : List Char → β) : Option (List Char) → GoalParse β
  | none => .goals none none
  | some goal_str => parseGoals strtod goal_str

/-- The value of a decimal digit character. -/
def digitVal (c : Char) : ℕ := c.toNat - 48

/-- The number written by a run of decimal digits. -/
def digitsVal (ds : List Char) : ℕ := ds.foldl (fun n c => 10 * n + digitVal c) 0

/-- Model of the C library function `strtod` on plain decimal text: an
optional sign, digits, and an optional `.` followed by digits; the longest
such beginning of the text is converted and the rest ignored.  A text that
begins with no digits converts to `0` (no conversion is performed).
Exponents and the special values are left out. -/
def strtodDecimal (s : List Char) : α :=
  let negative := s.head? = some '-'
  let body := if s.head? = some '-' ∨ s.head? = some '+' then s.tail else s
  let whole := body.takeWhile Char.isDigit
  let rest := body.dropWhile Char.isDigit
  let frac := if rest.head? = some '.' then rest.tail.takeWhile Char.isDigit else []
  let v : α := (digitsVal whole : α) + (digitsVal frac : α) / 10 ^ frac.length
  if negative then -v else v

/-- One coordinate pair of a goal string as text: the token of the x
coordinate, the delimiters between the two coordinates, the token of the y
coordinate, and the delimiters after the pair. -/
structure PairText where
  xtok : List Char
  sep : List Char
  ytok : List Char
  gap : List Char

/-- The characters of a pair, in order. -/
def PairText.render (p : PairText) : List Char := p.xtok ++ p.sep ++ p.ytok ++ p.gap

/-- A token: at least one character, none of them a delimiter. -/
def isToken (t : List Char) : Bool := !t.isEmpty && t.all (fun c => !isDelim c)

/-- A separator: at least one character, all of them spaces or commas. -/
def isGap (d : List Char) : Bool := !d.isEmpty && d.all isDelim

/-- A well-formed pair that is followed by another pair. -/
def PairText.wf (p : PairText) : Bool :=
  isToken p.xtok && isGap p.sep && isToken p.ytok && isGap p.gap

/-- A well-formed last pair: the delimiters after it may be missing. -/
def PairText.wfLast (p : PairText) : Bool :=
  isToken p.xtok && isGap p.sep && isToken p.ytok && p.gap.all isDelim

/-- The text of a goal string of `front.length + 1` pairs. -/
def goalText (front : List PairText) (last : PairText) : List Char :=
  (front.map PairText.render).flatten ++ last.render

/-- The snapshot globals of lines 45, 59 and 66 between two calls of
`ros::spinOnce()`.  The numbers live in the snapshot fields of `env`; a mark
says that the globals written by one callback still hold NaN, their initial
value, because no message has reached that callback yet: `pose_nan` for
`x, y, z, a`, `tpose_nan` for `turtle_x, turtle_y`, `vel_nan` for
`vx, vy, vz, va`.  So `std::isnan(x)` is `pose_nan`, `std::isnan(turtle_x)` is
`tpose_nan` and `std::isnan(vx)` is `vel_nan`.  While a mark is set the
corresponding fields of `env` carry no meaning. -/
structure Globals (α : Type) where
  env : Env α
  pose_nan : Bool
  tpose_nan : Bool
  vel_nan : Bool

/-- The globals before the first message (lines 45, 59, 66: all NaN), with
the values fixed before the loops in `config`. -/
def Globals.initial (config : Env α) : Globals α := ⟨config, true, true, true⟩

/-- The callback of lines 46-58 on a pose message, given as position and
the yaw angle the callback derives from the orientation. -/
def cbHPose (g : Globals α) (msg : α × α × α × α) : Globals α :=
  { g with
    env := { g.env with x := msg.1, y := msg.2.1, z := msg.2.2.1, a := msg.2.2.2 },
    pose_nan := false }

/-- The callback of lines 60-65 on a target pose message. -/
def cbTPose (g : Globals α) (msg : α × α) : Globals α :=
  { g with
    env := { g.env with turtle_x := msg.1, turtle_y := msg.2 },
    tpose_nan := false }

/-- The callback of lines 67-73 on a velocity message. -/
def cbHVel (g : Globals α) (msg : α × α × α × α) : Globals α :=
  { g with
    env := { g.env with vx := msg.1, vy := msg.2.1, vz := msg.2.2.1, va := msg.2.2.2 },
    vel_nan := false }

/-- The messages that one call of `ros::spinOnce()` hands to the three
callbacks: at most one per topic (the queues have size 1). -/
structure Spin (α : Type) where
  pose : Option (α × α × α × α)
  tpose : Option (α × α)
  vel : Option (α × α × α × α)

/-- One call of `ros::spinOnce()`: each pending message runs its callback. -/
def spinOnce (g : Globals α) (sp : Spin α) : Globals α :=
  let g1 := match sp.pose with
    | some msg => cbHPose g msg
    | none => g
  let g2 := match sp.tpose with
    | some msg => cbTPose g1 msg
    | none => g1
  match sp.vel with
  | some msg => cbHVel g2 msg
  | none => g2

/-- What the environment supplies at one evaluation of a loop condition and in
the iteration that follows it: the value of `ros::ok()`, the value of
`nh.param("run", true)`, the messages of the iteration's `ros::spinOnce()` and
the value of `nh.param("/turtle/run", false)`. -/
structure Event (α : Type) where
  ok : Bool
  run : Bool
  spin : Spin α
  turtle_run : Bool

/-- The part `ros::ok() && nh.param("run", true)` shared by the conditions of
lines 150 and 157. -/
def loopGuard (ev : Event α) : Bool := ev.ok && ev.run

/-- The wait loop of lines 150-151.  While the condition holds the body
`ros::spinOnce()` runs; when it fails the loop is left with the globals as they
are, and the result is those globals and the events that follow.  `none`: the
loop is still spinning when the events end. -/
def waitLoop : List (Event α) → Globals α → Option (Globals α × List (Event α))
  | [], _ => none
  | ev :: evs, g =>
    if loopGuard ev && (g.pose_nan || g.tpose_nan || g.vel_nan) then
      waitLoop evs (spinOnce g ev.spin)
    else
      some (g, evs)

/-- The globals the body of an iteration of the main loop reads: those left by
the `ros::spinOnce()` of line 160, with `/turtle/run` as line 189 reads it. -/
def readGlobals (g : Globals α) (ev : Event α) : Globals α :=
  { spinOnce g ev.spin with
    env := { (spinOnce g ev.spin).env with turtle_run := ev.turtle_run } }

/-- The main loop of lines 157-247: while the condition of line 157 holds, the
body runs `ros::spinOnce()` and then one `tick` (state machine and planner) on
the globals, with no test on them.  The result lists, for every iteration
executed, the globals the body read and what the `tick` computed. -/
def mainLoop (L : Lib α) (fuel : ℕ) :
    List (Event α) → Globals α → Loop → List (Globals α × Tick α)
  | [], _, _ => []
  | ev :: evs, g, s =>
    if loopGuard ev then
      (readGlobals g ev, tick L fuel (readGlobals g ev).env s)
        :: mainLoop L fuel evs (readGlobals g ev) (tick L fuel (readGlobals g ev).env s).next
    else
      []

/-- Lines 150-247: the wait loop from the initial globals, then the main loop
from `state = TAKEOFF`; the iterations of the main loop that are executed. -/
def program (L : Lib α) (fuel : ℕ) (config : Env α) (evs : List (Event α)) :
    List (Globals α × Tick α) :=
  match waitLoop evs (Globals.initial config) with
  | none => []
  | some (g, rest) => mainLoop L fuel rest g Loop.init

/-- Once `ros::ok() && nh.param("run", true)` has been read as false it is
not read as true at the next evaluation (nor, therefore, at any later one). -/
def guardLatched : List (Event α) → Bool
  | [] => true
  | [_] => true
  | ev :: ev2 :: evs => (loopGuard ev || !loopGuard ev2) && guardLatched (ev2 :: evs)

/-- A run of four events: nothing has arrived at the first test of the wait
loop, whose `spinOnce` then delivers a message on each topic; the wait loop is
left at the second; the third is an iteration of the main loop with a new pose
message; at the fourth the run flag reads `false`. -/
def eventsExample : List (Event ℚ) :=
  [⟨true, true, ⟨some (1, 0, 0, 0), some (7, 0), some (0, 0, 0, 0)⟩, true⟩,
   ⟨true, true, ⟨none, none, none⟩, true⟩,
   ⟨true, true, ⟨some (1, 0, 1, 0), none, none⟩, true⟩,
   ⟨true, false, ⟨none, none, none⟩, true⟩]

/-- Division that records a zero divisor: `none` when the divisor is `0`
(where the quotient of doubles is an infinity or NaN), and the quotient
otherwise. -/
def checkedDiv (p q : α) : Option α := if q = 0 then none else some (p / q)

/-- Line 220 with every `/` checked: `none` when a division by zero is
performed. -/
def a_2_checked (t_avg : α) : Option α := do
  let q1 ← checkedDiv (-3) t_avg
  let q2 ← checkedDiv q1 t_avg
  let q3 ← checkedDiv 2 t_avg
  let q4 ← checkedDiv 3 t_avg
  let q5 ← checkedDiv q4 t_avg
  let q6 ← checkedDiv 1 t_avg
  pure (q2 - q3 + q5 - q6)

/-- Line 221 with every `/` checked: `none` when a division by zero is
performed. -/
def a_3_checked (t_avg : α) : Option α := do
  let q1 ← checkedDiv 2 t_avg
  let q2 ← checkedDiv q1 t_avg
  let q3 ← checkedDiv q2 t_avg
  let q4 ← checkedDiv 1 t_avg
  let q5 ← checkedDiv q4 t_avg
  let q6 ← checkedDiv 2 t_avg
  let q7 ← checkedDiv q6 t_avg
  let q8 ← checkedDiv q7 t_avg
  let q9 ← checkedDiv 1 t_avg
  let q10 ← checkedDiv q9 t_avg
  pure (q3 + q5 - q8 + q10)

/-- Line 224 with every `/` checked; the expression is that of line 220. -/
def b_2_checked (t_avg : α) : Option α := a_2_checked t_avg

/-- Line 225 with every `/` checked; the expression is that of line 221. -/
def b_3_checked (t_avg : α) : Option α := a_3_checked t_avg

/-! ## Theorems -/

/-- The four quotients of line 220 sum to `-3 / t_avg`. -/
theorem a_2_closed_form (T : α) (hT : T ≠ 0) : a_2 T = -3 / T := by
  unfold a_2; field_simp; ring

/-- The four quotients of line 221 sum to `2 / t_avg²`. -/
theorem a_3_closed_form (T : α) (hT : T ≠ 0) : a_3 T = 2 / T ^ 2 := by
  unfold a_3; field_simp; ring

/-- For a duration that is not `0` the checked form of line 220 performs no
division by zero and gives the value of `a_2`. -/
theorem a_2_checked_eq (T : α) (hT : T ≠ 0) : a_2_checked T = some (a_2 T) := by
  simp [a_2_checked, checkedDiv, hT, a_2]

/-- For a duration that is not `0` the checked form of line 221 performs no
division by zero and gives the value of `a_3`. -/
theorem a_3_checked_eq (T : α) (hT : T ≠ 0) : a_3_checked T = some (a_3 T) := by
  simp [a_3_checked, checkedDiv, hT, a_3]

/-- The state after the state-machine block is never lower in mission order
than the state before it. -/
theorem stateMachine_rank_le (L : Lib α) (e : Env α) (s : Loop) :
    missionRank s.state ≤ missionRank (stateMachine L e s).1.state := by
  obtain ⟨st, m⟩ := s
  cases st <;> simp only [stateMachine] <;> split_ifs <;> simp_all [missionRank]

/-- Mission order is monotone along any run. -/
theorem run_rank_le (L : Lib α) (fuel : ℕ) (es : List (Env α)) :
    ∀ s : Loop, missionRank s.state ≤ missionRank (run L fuel es s).state := by
  induction es with
  | nil => intro s; exact le_rfl
  | cons e es ih =>
    intro s
    exact le_trans (stateMachine_rank_le L e s) (ih (tick L fuel e s).next)

/-- The sampling loop, started at time `t` with `trajectory = acc`, when exactly
the `n` times `t, t + step, .., t + (n-1) step` lie below `T`: with more than
`n` units of fuel it returns `acc` followed by the points at those `n` times,
in this order. -/
theorem trajectoryLoop_eq (c : Coeffs α) (step T : α) :
    ∀ (n fuel : ℕ) (t : α) (acc : List (Position α)), n < fuel →
      (∀ k : ℕ, k < n → t + k * step < T) → T ≤ t + n * step →
      trajectoryLoop c step T fuel t acc
        = some (acc ++ (List.range n).map (fun k : ℕ => c.point (t + k * step))) := by
  intro n
  induction n with
  | zero =>
    intro fuel t acc hf _ hT
    obtain ⟨f, rfl⟩ := Nat.exists_eq_succ_of_ne_zero (Nat.ne_of_gt hf)
    have hnot : ¬ t < T := by simpa using hT
    simp [trajectoryLoop, hnot]
  | succ n ih =>
    intro fuel t acc hf hlt hT
    obtain ⟨f, rfl⟩ := Nat.exists_eq_succ_of_ne_zero (Nat.ne_of_gt (Nat.zero_lt_of_lt hf))
    have h0 : t < T := by simpa using hlt 0 (Nat.succ_pos n)
    have hstep : ∀ k : ℕ, k < n → t + step + k * step < T := by
      intro k hk
      have := hlt (k + 1) (Nat.succ_lt_succ hk)
      push_cast at this
      linarith
    have hstop : T ≤ t + step + n * step := by
      push_cast at hT
      linarith
    have hmap : List.map (fun k : ℕ => c.point (t + k * step)) (List.range (n + 1))
        = c.point t :: List.map (fun k : ℕ => c.point (t + step + k * step)) (List.range n) := by
      rw [List.range_succ_eq_map, List.map_cons, List.map_map]
      simp only [Nat.cast_zero, zero_mul, add_zero]
      congr 1
      apply List.map_congr_left
      intro k _
      simp only [Function.comp, Nat.succ_eq_add_one, Nat.cast_add, Nat.cast_one]
      congr 1
      ring
    rw [trajectoryLoop, if_pos h0, ih f (t + step) _ (Nat.lt_of_succ_lt_succ hf) hstep hstop,
      hmap]
    simp

/-- The output of lines 227-235 for a positive step and a positive duration:
with at least `⌈T / step⌉` units of fuel the loop ends, and the trajectory is
the list of the points at the times `step, 2 step, ..`, one for each of the
`⌈T / step⌉ - 1` positive multiples of `step` below `T`. -/
theorem sampling_eq [FloorRing α] (c : Coeffs α) (step T : α) (hs : 0 < step) (hT : 0 < T)
    (fuel : ℕ) (hf : ⌈T / step⌉₊ ≤ fuel) :
    sampling c step T fuel
      = some ((List.range (⌈T / step⌉₊ - 1)).map (fun k : ℕ => c.point (step + k * step))) := by
  have hpos : 0 < ⌈T / step⌉₊ := Nat.ceil_pos.mpr (div_pos hT hs)
  have hbelow : ∀ k : ℕ, k < ⌈T / step⌉₊ - 1 → step + k * step < T := by
    intro k hk
    have hk2 : k + 1 < ⌈T / step⌉₊ := by omega
    have hlt : ((k + 1 : ℕ) : α) < T / step := Nat.lt_ceil.mp hk2
    have := (lt_div_iff₀ hs).mp hlt
    push_cast at this
    linarith
  have hstop : T ≤ step + ((⌈T / step⌉₊ - 1 : ℕ) : α) * step := by
    have hle : T / step ≤ (⌈T / step⌉₊ : α) := Nat.le_ceil _
    have hcast : ((⌈T / step⌉₊ - 1 : ℕ) : α) = (⌈T / step⌉₊ : α) - 1 := by
      rw [Nat.cast_sub hpos]; simp
    have := (div_le_iff₀ hs).mp hle
    rw [hcast]
    linarith
  have h := trajectoryLoop_eq c step T (⌈T / step⌉₊ - 1) fuel step [] (by omega) hbelow hstop
  simpa [sampling] using h

/-- C1: a tick that starts in `TURTLE` (PURSUE_TARGET), with `dist_euc` the
planar Euclidean distance, stays in `TURTLE` when the distance from `(x, y)` to
`(turtle_x, turtle_y)` exceeds `close_enough` and ends in `GOAL` (PURSUE_GOAL)
when it is at most `close_enough`; the altitude `z` has no influence. -/
theorem C1_pursue_target_transition (L : Lib ℝ)
    (hdist : ∀ x1 y1 x2 y2 : ℝ,
      L.dist_euc x1 y1 x2 y2 = Real.sqrt ((x1 - x2) ^ 2 + (y1 - y2) ^ 2))
    (fuel : ℕ) (e : Env ℝ) (m : Bool) :
    (Real.sqrt ((e.x - e.turtle_x) ^ 2 + (e.y - e.turtle_y) ^ 2) > e.close_enough →
        (tick L fuel e ⟨.TURTLE, m⟩).next.state = .TURTLE) ∧
    (Real.sqrt ((e.x - e.turtle_x) ^ 2 + (e.y - e.turtle_y) ^ 2) ≤ e.close_enough →
        (tick L fuel e ⟨.TURTLE, m⟩).next.state = .GOAL) ∧
    (∀ z2 : ℝ, (tick L fuel { e with z := z2 } ⟨.TURTLE, m⟩).next.state
        = (tick L fuel e ⟨.TURTLE, m⟩).next.state) := by
  refine ⟨fun h => ?_, fun h => ?_, fun z2 => ?_⟩
  · have h2 : ¬ L.dist_euc e.x e.y e.turtle_x e.turtle_y ≤ e.close_enough := by
      rw [hdist]; exact not_le.mpr h
    simp [tick, stateMachine, h2]
  · have h2 : L.dist_euc e.x e.y e.turtle_x e.turtle_y ≤ e.close_enough := by
      rw [hdist]; exact h
    simp [tick, stateMachine, h2]
  · simp [tick, stateMachine]

/-- Witness of C1 at the default inputs: vehicle and target both at the
origin, threshold `0.1`; the tick leaves `TURTLE` for `GOAL`. -/
theorem C1_pursue_target_transition_witness :
    (∀ x1 y1 x2 y2 : ℝ,
      (Lib.mk Real.sqrt
        (fun x1 y1 x2 y2 => Real.sqrt ((x1 - x2) ^ 2 + (y1 - y2) ^ 2))).dist_euc x1 y1 x2 y2
        = Real.sqrt ((x1 - x2) ^ 2 + (y1 - y2) ^ 2)) ∧
    (tick (Lib.mk Real.sqrt
        (fun x1 y1 x2 y2 => Real.sqrt ((x1 - x2) ^ 2 + (y1 - y2) ^ 2)))
      1 (Env.default ℝ) ⟨.TURTLE, true⟩).next.state = .GOAL :=
  ⟨fun _ _ _ _ => rfl,
   (C1_pursue_target_transition _ (fun _ _ _ _ => rfl) 1 (Env.default ℝ) true).2.1
     (by simp [Env.default])⟩

/-- C2 (evaluation of the code at the failing inputs): a tick that starts in
`TAKEOFF` with the altitude exactly at a configured cruise height of `5.0`, or
within the tolerance of the default cruise height (`z = 2.05`), stays in
`TAKEOFF`.  The test is `z == 2.0`: the tick leaves `TAKEOFF` exactly when
`z = 2`, whatever `height` and `close_enough` are. -/
theorem C2_takeoff_test_is_equality_with_two (L : Lib ℚ) (fuel : ℕ) :
    (|envAtCruiseHeight.z - envAtCruiseHeight.height| ≤ envAtCruiseHeight.close_enough ∧
      (tick L fuel envAtCruiseHeight Loop.init).next.state = .TAKEOFF) ∧
    (|envNearCruiseHeight.z - envNearCruiseHeight.height| ≤ envNearCruiseHeight.close_enough ∧
      (tick L fuel envNearCruiseHeight Loop.init).next.state = .TAKEOFF) ∧
    (∀ (e : Env ℚ) (m : Bool),
      (tick L fuel e ⟨.TAKEOFF, m⟩).next.state = .TURTLE ↔ e.z = 2) := by
  refine ⟨⟨?_, ?_⟩, ⟨?_, ?_⟩, fun e m => ?_⟩
  · norm_num [envAtCruiseHeight, Env.default]
  · norm_num [tick, stateMachine, Loop.init, envAtCruiseHeight, Env.default]
  · norm_num [envNearCruiseHeight, Env.default, abs_le]
  · norm_num [tick, stateMachine, Loop.init, envNearCruiseHeight, Env.default]
  · by_cases h : e.z = 2 <;> simp [tick, stateMachine, h]

/-- C3: the mission state never moves backwards in the order
`TAKEOFF < TURTLE < GOAL < START < LAND`: not over one tick, not over any
sequence of ticks with any inputs; and from `GOAL` on, the state is never
`TAKEOFF` or `TURTLE` again. -/
theorem C3_mission_state_never_moves_back (L : Lib α) (fuel : ℕ) (es : List (Env α))
    (s : Loop) :
    (∀ e : Env α, missionRank s.state ≤ missionRank (tick L fuel e s).next.state) ∧
    missionRank s.state ≤ missionRank (run L fuel es s).state ∧
    (∀ m : Bool, (run L fuel es ⟨.GOAL, m⟩).state ≠ .TAKEOFF ∧
      (run L fuel es ⟨.GOAL, m⟩).state ≠ .TURTLE) := by
  refine ⟨fun e => stateMachine_rank_le L e s, run_rank_le L fuel es s, fun m => ?_⟩
  have h := run_rank_le L fuel es ⟨.GOAL, m⟩
  constructor <;> intro hc <;> rw [hc] at h <;> simp [missionRank] at h

/-- C4 (evaluation of the code at the failing input): in the scenario start
`(0, 0)` at rest, destination `(10, 0)`, speed `2`, the planner computes
`t_avg = 5`, `a_2 = -3/5` and `a_3 = 2/25`, where the Hermite closed form
gives `6/5` and `-4/25`; the x-polynomial of the code takes the value `-5` at
`t = t_avg`, not the destination coordinate `10`. -/
theorem C4_coefficients_in_scenario (L : Lib α) (hsqrt : L.sqrt 100 = 10) (fuel : ℕ) :
    (planner L fuel (envScenario α)).t_avg = 5 ∧
    (planner L fuel (envScenario α)).coeffs.a_2 = -3 / 5 ∧
    hermite_a2 (envScenario α).initial_x (envScenario α).vx (envScenario α).pos_goal.x 0 5
      = 6 / 5 ∧
    (planner L fuel (envScenario α)).coeffs.a_3 = 2 / 25 ∧
    hermite_a3 (envScenario α).initial_x (envScenario α).vx (envScenario α).pos_goal.x 0 5
      = -4 / 25 ∧
    (planner L fuel (envScenario α)).coeffs.fx 5 = -5 ∧
    (envScenario α).pos_goal.x = 10 := by
  have hT : t_avg L (envScenario α) = 5 := by
    have h100 : (10 : α) * 10 - 0 * 0 = 100 := by norm_num
    simp only [t_avg, envScenario, Env.default, h100, hsqrt]
    norm_num
  have h5 : (5 : α) ≠ 0 := by norm_num
  refine ⟨hT, ?_, ?_, ?_, ?_, ?_, rfl⟩
  · simp only [planner, coeffs, hT, a_2_closed_form 5 h5]
  · norm_num [hermite_a2, envScenario, Env.default]
  · simp only [planner, coeffs, hT, a_3_closed_form 5 h5]; norm_num
  · norm_num [hermite_a3, envScenario, Env.default]
  · simp only [planner, coeffs, hT, Coeffs.fx, a_2_closed_form 5 h5, a_3_closed_form 5 h5]
    norm_num [a_0, a_1, envScenario, Env.default]

/-- Witness of the C4 evaluation over the reals, with `sqrt` the real square
root: the x-polynomial at `t = t_avg` is `-5`. -/
theorem C4_coefficients_in_scenario_witness :
    (Lib.mk Real.sqrt
      (fun x1 y1 x2 y2 => Real.sqrt ((x1 - x2) ^ 2 + (y1 - y2) ^ 2))).sqrt 100 = 10 ∧
    (planner (Lib.mk Real.sqrt
      (fun x1 y1 x2 y2 => Real.sqrt ((x1 - x2) ^ 2 + (y1 - y2) ^ 2)))
      1 (envScenario ℝ)).coeffs.fx 5 = -5 :=
  have h : Real.sqrt 100 = 10 := by
    rw [show (100 : ℝ) = 10 ^ 2 by norm_num]
    exact Real.sqrt_sq (by norm_num)
  ⟨h, (C4_coefficients_in_scenario _ h 1).2.2.2.2.2.1⟩

/-- C5 (counterexample): over the reals, with `sqrt` the real square root.
With start and destination both `(0, 0)` and speed `2` the duration is `0`,
which is `max (distance / speed) ε` for no positive `ε`; on the diagonal leg from
`(0, 0)` to `(1, 1)` the duration is `0` as well, which is
`max (distance / speed) ε` for no `ε` at all. -/
theorem C5_duration_counterexample :
    (t_avg (Lib.mk Real.sqrt
        (fun x1 y1 x2 y2 => Real.sqrt ((x1 - x2) ^ 2 + (y1 - y2) ^ 2))) (Env.default ℝ) = 0 ∧
      ¬ ∃ ε : ℝ, 0 < ε ∧
        t_avg (Lib.mk Real.sqrt
          (fun x1 y1 x2 y2 => Real.sqrt ((x1 - x2) ^ 2 + (y1 - y2) ^ 2))) (Env.default ℝ)
        = max (Real.sqrt ((dx_hector (Env.default ℝ)) ^ 2 + (dy_hector (Env.default ℝ)) ^ 2)
            / (Env.default ℝ).average_speed) ε) ∧
    (t_avg (Lib.mk Real.sqrt
        (fun x1 y1 x2 y2 => Real.sqrt ((x1 - x2) ^ 2 + (y1 - y2) ^ 2))) (envDiagonal ℝ) = 0 ∧
      ¬ ∃ ε : ℝ,
        t_avg (Lib.mk Real.sqrt
          (fun x1 y1 x2 y2 => Real.sqrt ((x1 - x2) ^ 2 + (y1 - y2) ^ 2))) (envDiagonal ℝ)
        = max (Real.sqrt ((dx_hector (envDiagonal ℝ)) ^ 2 + (dy_hector (envDiagonal ℝ)) ^ 2)
            / (envDiagonal ℝ).average_speed) ε) := by
  have h1 : t_avg (Lib.mk Real.sqrt
      (fun x1 y1 x2 y2 => Real.sqrt ((x1 - x2) ^ 2 + (y1 - y2) ^ 2))) (Env.default ℝ) = 0 := by
    simp [t_avg, Env.default]
  have h2 : t_avg (Lib.mk Real.sqrt
      (fun x1 y1 x2 y2 => Real.sqrt ((x1 - x2) ^ 2 + (y1 - y2) ^ 2))) (envDiagonal ℝ) = 0 := by
    simp [t_avg, envDiagonal, Env.default]
  refine ⟨⟨h1, ?_⟩, h2, ?_⟩
  · rintro ⟨ε, hε, h⟩
    rw [h1] at h
    have := le_max_right (Real.sqrt ((dx_hector (Env.default ℝ)) ^ 2
      + (dy_hector (Env.default ℝ)) ^ 2) / (Env.default ℝ).average_speed) ε
    linarith
  · rintro ⟨ε, h⟩
    rw [h2] at h
    have hpos : 0 < Real.sqrt ((dx_hector (envDiagonal ℝ)) ^ 2
        + (dy_hector (envDiagonal ℝ)) ^ 2) / (envDiagonal ℝ).average_speed := by
      apply div_pos
      · apply Real.sqrt_pos.mpr
        norm_num [dx_hector, dy_hector, envDiagonal, Env.default]
      · norm_num [envDiagonal, Env.default]
    have := le_max_left (Real.sqrt ((dx_hector (envDiagonal ℝ)) ^ 2
      + (dy_hector (envDiagonal ℝ)) ^ 2) / (envDiagonal ℝ).average_speed) ε
    linarith

/-- C5 (amended): in exact arithmetic, with `sqrt` the real square root on
non-negative numbers and `dx`, `dy` carrying the values of `dx_hector`,
`dy_hector`: for every cruise speed `> 0`, on a leg whose start and
destination have the same y-coordinate the duration is the planar Euclidean
distance divided by the speed, with no lower clamp: it is `≥ 0`, and it is `0`
when start and destination coincide. -/
theorem C5_duration_on_level_leg (L : Lib ℝ)
    (hsqrt : ∀ r : ℝ, 0 ≤ r → L.sqrt r = Real.sqrt r)
    (e : Env ℝ) (hs : 0 < e.average_speed) (hdx : e.dx = dx_hector e)
    (hdy : e.dy = dy_hector e) (h0 : dy_hector e = 0) :
    t_avg L e = Real.sqrt ((dx_hector e) ^ 2 + (dy_hector e) ^ 2) / e.average_speed ∧
    0 ≤ t_avg L e ∧
    (dx_hector e = 0 → t_avg L e = 0) := by
  have hrad : 0 ≤ dx_hector e * dx_hector e - 0 * 0 := by
    have := mul_self_nonneg (dx_hector e)
    linarith
  have hT : t_avg L e
      = Real.sqrt ((dx_hector e) ^ 2 + (dy_hector e) ^ 2) / e.average_speed := by
    simp only [t_avg, hdx, hdy, h0]
    rw [hsqrt _ hrad]
    congr 2
    ring
  refine ⟨hT, ?_, fun hz => ?_⟩
  · rw [hT]
    exact div_nonneg (Real.sqrt_nonneg _) (le_of_lt hs)
  · rw [hT, hz, h0]
    simp

/-- Witness of amended C5 in the scenario start `(0, 0)`, destination
`(10, 0)`, speed `2`. -/
theorem C5_duration_on_level_leg_witness :
    t_avg (Lib.mk Real.sqrt
        (fun x1 y1 x2 y2 => Real.sqrt ((x1 - x2) ^ 2 + (y1 - y2) ^ 2))) (envScenario ℝ)
      = Real.sqrt ((dx_hector (envScenario ℝ)) ^ 2 + (dy_hector (envScenario ℝ)) ^ 2)
          / (envScenario ℝ).average_speed :=
  (C5_duration_on_level_leg _ (fun _ _ => rfl) (envScenario ℝ)
    (by norm_num [envScenario, Env.default])
    (by norm_num [envScenario, Env.default, dx_hector])
    (by norm_num [envScenario, Env.default, dy_hector])
    (by norm_num [envScenario, Env.default, dy_hector])).1

/-- C6 (counterexample): with duration `T = 5` and step `1` the loop samples
the times `1, 2, 3, 4` and the trajectory has `4` points, while
`⌈T / step⌉ = 5`. -/
theorem C6_waypoint_count_counterexample :
    (sampling (coeffs (envScenario ℚ) 5) 1 5 5).map List.length = some 4 ∧
    ⌈(5 : ℚ) / 1⌉₊ = 5 := by
  constructor
  · norm_num [sampling, trajectoryLoop]
  · rw [div_one]; exact Nat.ceil_natCast 5

/-- C6 (amended): in exact arithmetic (the sample time advanced without
rounding), for every duration `T > 0` and step `> 0` the sampling loop ends
(given `⌈T / step⌉` units of fuel) and the trajectory it produces has exactly
`⌈T / step⌉ - 1` points. -/
theorem C6_waypoint_count [FloorRing α] (c : Coeffs α) (step T : α) (hs : 0 < step)
    (hT : 0 < T) (fuel : ℕ) (hf : ⌈T / step⌉₊ ≤ fuel) :
    ∃ trajectory : List (Position α),
      sampling c step T fuel = some trajectory ∧
      trajectory.length = ⌈T / step⌉₊ - 1 :=
  ⟨_, sampling_eq c step T hs hT fuel hf, by simp⟩

/-- Witness of amended C6 at `T = 5/2`, step `1`, fuel `3`. -/
theorem C6_waypoint_count_witness :
    ∃ trajectory : List (Position ℚ),
      sampling (coeffs (envScenario ℚ) 5) 1 (5 / 2) 3 = some trajectory ∧
      trajectory.length = ⌈(5 / 2 : ℚ) / 1⌉₊ - 1 :=
  C6_waypoint_count (coeffs (envScenario ℚ) 5) 1 (5 / 2) (by norm_num) (by norm_num) 3
    (Nat.ceil_le.mpr (by norm_num))

/-- C7 (counterexample): on the short leg (duration `1/2`, step `1`) the
trajectory is empty; in the scenario with duration `5` and step `1` the last
waypoint is the sample at `t = 4`, the point `(-112/25, -112/25)`, while the
destination is `(10, 0)`. -/
theorem C7_last_waypoint_counterexample :
    sampling (coeffs (envShort ℚ) (1 / 2)) (envShort ℚ).look_ahead (1 / 2) 1 = some [] ∧
    (sampling (coeffs (envScenario ℚ) 5) (envScenario ℚ).look_ahead 5 5).bind List.getLast?
      = some ⟨-112 / 25, -112 / 25⟩ ∧
    (envScenario ℚ).pos_goal = ⟨10, 0⟩ := by
  refine ⟨?_, ?_, rfl⟩
  · norm_num [sampling, trajectoryLoop, envShort, Env.default]
  · have h5 : (5 : ℚ) ≠ 0 := by norm_num
    norm_num [sampling, trajectoryLoop, envScenario, Env.default, coeffs, Coeffs.point,
      Coeffs.fx, Coeffs.fy, a_0, a_1, b_0, b_1, a_2_closed_form 5 h5, a_3_closed_form 5 h5,
      b_2, b_3]

/-- C7 (amended): in exact arithmetic (the sample time advanced without
rounding), for every duration `T > 0` and step `> 0` the sampling loop ends;
its trajectory is empty exactly when `T ≤ step`, and when `step < T` its last
element is the point of the polynomials at the last sample time
`(⌈T / step⌉ - 1) * step`, a time strictly before `T`. -/
theorem C7_last_waypoint [FloorRing α] (c : Coeffs α) (step T : α) (hs : 0 < step)
    (hT : 0 < T) (fuel : ℕ) (hf : ⌈T / step⌉₊ ≤ fuel) :
    ∃ trajectory : List (Position α),
      sampling c step T fuel = some trajectory ∧
      (trajectory = [] ↔ T ≤ step) ∧
      (step < T →
        trajectory.getLast? = some (c.point (((⌈T / step⌉₊ - 1 : ℕ) : α) * step)) ∧
        ((⌈T / step⌉₊ - 1 : ℕ) : α) * step < T) := by
  refine ⟨_, sampling_eq c step T hs hT fuel hf, ?_, fun hlt => ?_⟩
  · have hpos : 0 < ⌈T / step⌉₊ := Nat.ceil_pos.mpr (div_pos hT hs)
    have h1 : ⌈T / step⌉₊ ≤ 1 ↔ T ≤ step := by
      rw [Nat.ceil_le, div_le_iff₀ hs]; simp
    rw [List.map_eq_nil_iff, List.range_eq_nil, ← h1]
    omega
  · have h1 : 1 < ⌈T / step⌉₊ := by
      rw [Nat.lt_ceil, lt_div_iff₀ hs]; simpa using hlt
    have hn : ⌈T / step⌉₊ - 1 ≠ 0 := by omega
    constructor
    · rw [List.getLast?_map, List.getLast?_range, if_neg hn]
      simp only [Option.map_some']
      congr 2
      have hcast : ((⌈T / step⌉₊ - 1 - 1 : ℕ) : α) = ((⌈T / step⌉₊ - 1 : ℕ) : α) - 1 := by
        rw [Nat.cast_sub (by omega : 1 ≤ ⌈T / step⌉₊ - 1)]; simp
      rw [hcast]
      ring
    · have hlt2 : ⌈T / step⌉₊ - 1 < ⌈T / step⌉₊ := by omega
      exact (lt_div_iff₀ hs).mp (Nat.lt_ceil.mp hlt2)

/-- Witness of amended C7 at `T = 5/2`, step `1`, fuel `3`. -/
theorem C7_last_waypoint_witness :
    ∃ trajectory : List (Position ℚ),
      sampling (coeffs (envScenario ℚ) 5) 1 (5 / 2) 3 = some trajectory ∧
      (trajectory = [] ↔ (5 / 2 : ℚ) ≤ 1) ∧
      ((1 : ℚ) < 5 / 2 →
        trajectory.getLast?
          = some ((coeffs (envScenario ℚ) 5).point (((⌈(5 / 2 : ℚ) / 1⌉₊ - 1 : ℕ) : ℚ) * 1)) ∧
        ((⌈(5 / 2 : ℚ) / 1⌉₊ - 1 : ℕ) : ℚ) * 1 < 5 / 2) :=
  C7_last_waypoint (coeffs (envScenario ℚ) 5) 1 (5 / 2) (by norm_num) (by norm_num) 3
    (Nat.ceil_le.mpr (by norm_num))

/-- C8 (counterexample): over the reals, with `sqrt` the real square root and
start and destination both `(0, 0)`: the distance `0` is below the threshold
`0.1`, the duration computed is `0`, and the trajectory is empty, not the
single point `pos_goal`. -/
theorem C8_degenerate_leg_counterexample :
    Real.sqrt ((dx_hector (Env.default ℝ)) ^ 2 + (dy_hector (Env.default ℝ)) ^ 2)
      < (Env.default ℝ).close_enough ∧
    (planner (Lib.mk Real.sqrt
      (fun x1 y1 x2 y2 => Real.sqrt ((x1 - x2) ^ 2 + (y1 - y2) ^ 2)))
      1 (Env.default ℝ)).t_avg = 0 ∧
    (planner (Lib.mk Real.sqrt
      (fun x1 y1 x2 y2 => Real.sqrt ((x1 - x2) ^ 2 + (y1 - y2) ^ 2)))
      1 (Env.default ℝ)).trajectory = some [] ∧
    (planner (Lib.mk Real.sqrt
      (fun x1 y1 x2 y2 => Real.sqrt ((x1 - x2) ^ 2 + (y1 - y2) ^ 2)))
      1 (Env.default ℝ)).trajectory ≠ some [(Env.default ℝ).pos_goal] := by
  have hT : t_avg (Lib.mk Real.sqrt
      (fun x1 y1 x2 y2 => Real.sqrt ((x1 - x2) ^ 2 + (y1 - y2) ^ 2))) (Env.default ℝ) = 0 := by
    simp [t_avg, Env.default]
  have htraj : (planner (Lib.mk Real.sqrt
      (fun x1 y1 x2 y2 => Real.sqrt ((x1 - x2) ^ 2 + (y1 - y2) ^ 2)))
      1 (Env.default ℝ)).trajectory = some [] := by
    simp only [planner, hT, sampling, trajectoryLoop]
    norm_num [Env.default]
  refine ⟨?_, hT, htraj, ?_⟩
  · norm_num [dx_hector, dy_hector, Env.default]
  · rw [htraj]; simp

/-- C8 (amended): the planner has no branch for a degenerate leg.  In exact
arithmetic, for a cruise speed `> 0`, with `dx`, `dy` carrying the values of
`dx_hector`, `dy_hector`, `sqrt 0 = 0` and a step `≥ 0`: when start and
destination coincide the duration computed is exactly `0`, each of `a_2`,
`a_3`, `b_2`, `b_3` is computed with a division by that zero duration, and the
trajectory is empty.  More generally, for a speed `> 0` and a radicand `≥ 0`,
the trajectory is empty whenever the duration computed is at most the
look-ahead step. -/
theorem C8_degenerate_leg (L : Lib α) (fuel : ℕ) (e : Env α)
    (hsqrt : L.sqrt 0 = 0) (hs : 0 < e.average_speed)
    (hp : e.pos_goal = ⟨e.initial_x, e.initial_y⟩)
    (hdx : e.dx = dx_hector e) (hdy : e.dy = dy_hector e) (hl : 0 ≤ e.look_ahead) :
    (planner L (fuel + 1) e).t_avg = 0 ∧
    a_2_checked (planner L (fuel + 1) e).t_avg = none ∧
    a_3_checked (planner L (fuel + 1) e).t_avg = none ∧
    b_2_checked (planner L (fuel + 1) e).t_avg = none ∧
    b_3_checked (planner L (fuel + 1) e).t_avg = none ∧
    (planner L (fuel + 1) e).trajectory = some [] ∧
    (∀ e2 : Env α, 0 < e2.average_speed → 0 ≤ e2.dx * e2.dx - e2.dy * e2.dy →
      t_avg L e2 ≤ e2.look_ahead → (planner L (fuel + 1) e2).trajectory = some []) := by
  have hempty : ∀ e2 : Env α, t_avg L e2 ≤ e2.look_ahead →
      (planner L (fuel + 1) e2).trajectory = some [] := by
    intro e2 h
    simp [planner, sampling, trajectoryLoop, not_lt.mpr h]
  have hne : e.average_speed ≠ 0 := ne_of_gt hs
  have hT : t_avg L e = 0 := by
    simp [t_avg, hdx, hdy, dx_hector, dy_hector, hp, hsqrt, hne]
  have hT2 : (planner L (fuel + 1) e).t_avg = 0 := hT
  refine ⟨hT, ?_, ?_, ?_, ?_, hempty e (by rw [hT]; exact hl), fun e2 _ _ h => hempty e2 h⟩
  · rw [hT2]; simp [a_2_checked, checkedDiv]
  · rw [hT2]; simp [a_3_checked, checkedDiv]
  · rw [hT2]; simp [b_2_checked, a_2_checked, checkedDiv]
  · rw [hT2]; simp [b_3_checked, a_3_checked, checkedDiv]

/-- Witness of amended C8 over the reals at the default inputs, where start and
destination are both `(0, 0)`, the speed is `2` and the step is `1`. -/
theorem C8_degenerate_leg_witness :
    (planner (Lib.mk Real.sqrt
      (fun x1 y1 x2 y2 => Real.sqrt ((x1 - x2) ^ 2 + (y1 - y2) ^ 2)))
      (0 + 1) (Env.default ℝ)).t_avg = 0 ∧
    a_2_checked (planner (Lib.mk Real.sqrt
      (fun x1 y1 x2 y2 => Real.sqrt ((x1 - x2) ^ 2 + (y1 - y2) ^ 2)))
      (0 + 1) (Env.default ℝ)).t_avg = none :=
  have h := C8_degenerate_leg (Lib.mk Real.sqrt
      (fun x1 y1 x2 y2 => Real.sqrt ((x1 - x2) ^ 2 + (y1 - y2) ^ 2)))
    0 (Env.default ℝ) Real.sqrt_zero (by norm_num [Env.default]) rfl
    (by simp [Env.default, dx_hector]) (by simp [Env.default, dy_hector])
    (by simp [Env.default])
  ⟨h.1, h.2.1⟩

/-- C9 (evaluation of the code): a tick that starts in `TAKEOFF` publishes the
rotation flag `false`; a tick that starts in `TURTLE`, `GOAL`, `START` or
`LAND` publishes nothing, so `true` is never published on any run.  On the
run that reaches the cruise test (`z = 2`) in its first tick, the loop is in
`TURTLE` with `msg_rotate.data = true` after that tick, and after one more
tick the only payload ever published is `false`. -/
theorem C9_rotate_flag_published_only_in_takeoff (L : Lib α) (fuel : ℕ) (e e2 : Env α)
    (m : Bool) (es : List (Env α)) (s : Loop) :
    (tick L fuel e ⟨.TAKEOFF, m⟩).published = [false] ∧
    (tick L fuel e ⟨.TURTLE, m⟩).published = [] ∧
    (tick L fuel e ⟨.GOAL, m⟩).published = [] ∧
    (tick L fuel e ⟨.START, m⟩).published = [] ∧
    (tick L fuel e ⟨.LAND, m⟩).published = [] ∧
    true ∉ runPublished L fuel es s ∧
    run L fuel [{ e with z := 2 }] Loop.init = ⟨.TURTLE, true⟩ ∧
    runPublished L fuel [{ e with z := 2 }, e2] Loop.init = [false] := by
  have hpub : ∀ (e1 : Env α) (s1 : Loop), true ∉ (tick L fuel e1 s1).published := by
    intro e1 s1
    obtain ⟨st, m1⟩ := s1
    cases st <;> simp only [tick, stateMachine] <;> split_ifs <;> simp_all
  have hrun : ∀ (l : List (Env α)) (s1 : Loop), true ∉ runPublished L fuel l s1 := by
    intro l
    induction l with
    | nil => intro s1; simp [runPublished]
    | cons e1 l ih =>
      intro s1
      simp only [runPublished, List.mem_append, not_or]
      exact ⟨hpub e1 s1, ih _⟩
  refine ⟨?_, ?_, ?_, ?_, ?_, hrun es s, ?_, ?_⟩
  · simp only [tick, stateMachine]; split_ifs <;> simp_all
  · simp only [tick, stateMachine]; split_ifs <;> simp_all
  · simp only [tick, stateMachine]; split_ifs <;> simp_all
  · simp only [tick, stateMachine]; split_ifs <;> simp_all
  · simp [tick, stateMachine]
  · simp [run, tick, stateMachine, Loop.init]
  · have h1 : stateMachine L { e with z := 2 } Loop.init = (⟨.TURTLE, true⟩, [false]) := by
      simp [stateMachine, Loop.init]
    have h2 : (stateMachine L e2 ⟨.TURTLE, true⟩).2 = [] := by
      simp only [stateMachine]; split_ifs <;> simp_all
    simp [runPublished, tick, h1, h2]

/-- C10 (evaluation of the code): what the planner computes in a tick does not
depend on the mission state, nor on the live target position
`(turtle_x, turtle_y)`, nor on the fixed goal `(goal_x, goal_y)`: the leg is
planned from `pos_goal`, which no branch of the state machine assigns.  In a
tick that starts in `TURTLE` with the target at `(7, 0)` the planned leg is
`dx_hector = 10`, `dy_hector = 0`, the offset of `pos_goal = (10, 0)`. -/
theorem C10_plan_ignores_state_and_targets (L : Lib ℚ) (fuel : ℕ) (e : Env ℚ)
    (s s2 : Loop) (tx ty gx gy : ℚ) :
    (tick L fuel { e with turtle_x := tx, turtle_y := ty, goal_x := gx, goal_y := gy } s2).plan
      = (tick L fuel e s).plan ∧
    (tick L fuel envPursuit ⟨.TURTLE, true⟩).plan.dx_hector = 10 ∧
    (tick L fuel envPursuit ⟨.TURTLE, true⟩).plan.dy_hector = 0 ∧
    envPursuit.turtle_x - envPursuit.initial_x = 7 ∧
    envPursuit.turtle_y - envPursuit.initial_y = 0 := by
  refine ⟨rfl, ?_, ?_, ?_, ?_⟩ <;>
    norm_num [tick, planner, dx_hector, dy_hector, envPursuit, envScenario, Env.default]

/-- The state after the state-machine block is the state before it or the next
one in mission order. -/
theorem stateMachine_rank_step (L : Lib α) (e : Env α) (s : Loop) :
    (stateMachine L e s).1.state = s.state ∨
    missionRank (stateMachine L e s).1.state = missionRank s.state + 1 := by
  obtain ⟨st, m⟩ := s
  cases st <;> simp only [stateMachine] <;> split_ifs <;> simp_all [missionRank]

/-- Mission rank separates the five states. -/
theorem missionRank_injective (s t : HectorState) (h : missionRank s = missionRank t) :
    s = t := by
  cases s <;> cases t <;> simp_all [missionRank]

/-- Every mission rank between the rank at the start of a run and the rank at
its end is the rank of some state of the trace. -/
theorem trace_covers (L : Lib α) (fuel : ℕ) (es : List (Env α)) :
    ∀ (s : Loop) (r : ℕ), missionRank s.state ≤ r →
      r ≤ missionRank (run L fuel es s).state →
      ∃ st, st ∈ trace L fuel es s ∧ missionRank st = r := by
  induction es with
  | nil =>
    intro s r h1 h2
    exact ⟨s.state, by simp [trace], le_antisymm h1 h2⟩
  | cons e es ih =>
    intro s r h1 h2
    by_cases hr : missionRank s.state = r
    · exact ⟨s.state, by simp [trace], hr⟩
    · have hstep := stateMachine_rank_step L e s
      have hnext : missionRank (tick L fuel e s).next.state ≤ r := by
        rcases hstep with h | h
        · simp only [tick, h]; exact h1
        · simp only [tick, h]; omega
      obtain ⟨st, hst, hrank⟩ := ih (tick L fuel e s).next r hnext h2
      exact ⟨st, by simp [trace, hst], hrank⟩

/-- C11: a tick that starts in `GOAL` (PURSUE_GOAL), with `dist_euc` the
planar Euclidean distance, ends in `START` (RETURN) if and only if the distance
from `(x, y)` to `(goal_x, goal_y)` is at most `close_enough`, and otherwise
stays in `GOAL`. -/
theorem C11_pursue_goal_transition (L : Lib ℝ)
    (hdist : ∀ x1 y1 x2 y2 : ℝ,
      L.dist_euc x1 y1 x2 y2 = Real.sqrt ((x1 - x2) ^ 2 + (y1 - y2) ^ 2))
    (fuel : ℕ) (e : Env ℝ) (m : Bool) :
    ((tick L fuel e ⟨.GOAL, m⟩).next.state = .START ↔
        Real.sqrt ((e.x - e.goal_x) ^ 2 + (e.y - e.goal_y) ^ 2) ≤ e.close_enough) ∧
    (¬ Real.sqrt ((e.x - e.goal_x) ^ 2 + (e.y - e.goal_y) ^ 2) ≤ e.close_enough →
        (tick L fuel e ⟨.GOAL, m⟩).next.state = .GOAL) := by
  by_cases h : L.dist_euc e.x e.y e.goal_x e.goal_y ≤ e.close_enough
  · have h2 := h
    rw [hdist] at h2
    simp [tick, stateMachine, h, h2]
  · have h2 := h
    rw [hdist] at h2
    simp [tick, stateMachine, h, h2]

/-- Witness of C11 at the default inputs: vehicle and goal both at the origin,
threshold `0.1`; the tick leaves `GOAL` for `START`. -/
theorem C11_pursue_goal_transition_witness :
    (tick (Lib.mk Real.sqrt
        (fun x1 y1 x2 y2 => Real.sqrt ((x1 - x2) ^ 2 + (y1 - y2) ^ 2)))
      1 (Env.default ℝ) ⟨.GOAL, true⟩).next.state = .START :=
  (C11_pursue_goal_transition _ (fun _ _ _ _ => rfl) 1 (Env.default ℝ) true).1.mpr
    (by simp [Env.default])

/-- C12: a tick that starts in `START` (RETURN) ends in `LAND` if and only if
`nh.param("/turtle/run", false)` is `false`, and otherwise stays in `START`;
the state after the tick is the same for any two inputs that agree on that
signal, whatever the positions of vehicle and home (and whatever `dist_euc`). -/
theorem C12_return_transition (L L2 : Lib α) (fuel : ℕ) (e e2 : Env α) (m : Bool) :
    ((tick L fuel e ⟨.START, m⟩).next.state = .LAND ↔ e.turtle_run = false) ∧
    ((tick L fuel e ⟨.START, m⟩).next.state = .START ↔ e.turtle_run = true) ∧
    (e2.turtle_run = e.turtle_run →
      (tick L2 fuel e2 ⟨.START, m⟩).next.state = (tick L fuel e ⟨.START, m⟩).next.state) := by
  refine ⟨?_, ?_, fun h => ?_⟩
  · cases h : e.turtle_run <;> simp [tick, stateMachine, h]
  · cases h : e.turtle_run <;> simp [tick, stateMachine, h]
  · cases h1 : e.turtle_run <;> simp [tick, stateMachine, h, h1]

/-- C13: the loop starts in `TAKEOFF`, and `LAND` is terminal: a tick that
starts in `LAND` ends in `LAND`, and so does every run from `LAND`. -/
theorem C13_initial_and_terminal_state (L : Lib α) (fuel : ℕ) (e : Env α) (m : Bool)
    (es : List (Env α)) :
    Loop.init.state = .TAKEOFF ∧
    (tick L fuel e ⟨.LAND, m⟩).next.state = .LAND ∧
    (run L fuel es ⟨.LAND, m⟩).state = .LAND := by
  refine ⟨rfl, by simp [tick, stateMachine], ?_⟩
  have h := run_rank_le L fuel es ⟨.LAND, m⟩
  apply missionRank_injective
  have hle : ∀ st : HectorState, missionRank st ≤ 4 := by
    intro st; cases st <;> simp [missionRank]
  have h4 : missionRank HectorState.LAND = 4 := rfl
  have := hle (run L fuel es ⟨.LAND, m⟩).state
  rw [h4] at h ⊢
  omega

/-- C19: for every duration `T ≠ 0` the coefficients of lines 220-225 are
`a_2 = b_2 = -3/T` and `a_3 = b_3 = 2/T²`; they are the same for any two input
records, so they depend on `T` alone; the planner uses them with `T = t_avg`. -/
theorem C19_quadratic_and_cubic_coefficients (L : Lib α) (fuel : ℕ) (e e2 : Env α) (T : α)
    (hT : T ≠ 0) :
    (coeffs e T).a_2 = -3 / T ∧ (coeffs e T).b_2 = -3 / T ∧
    (coeffs e T).a_3 = 2 / T ^ 2 ∧ (coeffs e T).b_3 = 2 / T ^ 2 ∧
    (coeffs e2 T).a_2 = (coeffs e T).a_2 ∧ (coeffs e2 T).b_2 = (coeffs e T).b_2 ∧
    (coeffs e2 T).a_3 = (coeffs e T).a_3 ∧ (coeffs e2 T).b_3 = (coeffs e T).b_3 ∧
    (planner L fuel e).coeffs = coeffs e (planner L fuel e).t_avg := by
  refine ⟨a_2_closed_form T hT, ?_, a_3_closed_form T hT, ?_, rfl, rfl, rfl, rfl, rfl⟩
  · exact a_2_closed_form T hT
  · exact a_3_closed_form T hT

/-- Witness of C19 at `T = 5`: `a_2 = -3/5`. -/
theorem C19_quadratic_and_cubic_coefficients_witness :
    (coeffs (envScenario ℚ) 5).a_2 = -3 / 5 :=
  (C19_quadratic_and_cubic_coefficients (Lib.mk id (fun _ _ _ _ => 0)) 1 (envScenario ℚ)
    (envDiagonal ℚ) 5 (by norm_num)).1

/-- C20: a tick takes at most one edge of the mission order: the state after
it is the state before it or the immediate successor in
`TAKEOFF, TURTLE, GOAL, START, LAND`; hence a run from the initial state that
ends in `LAND` has gone through all five states. -/
theorem C20_one_edge_per_tick (L : Lib α) (fuel : ℕ) (es : List (Env α)) (s : Loop) :
    (∀ e : Env α, (tick L fuel e s).next.state = s.state ∨
      missionRank (tick L fuel e s).next.state = missionRank s.state + 1) ∧
    ((run L fuel es Loop.init).state = .LAND →
      ∀ st : HectorState, st ∈ trace L fuel es Loop.init) := by
  refine ⟨fun e => stateMachine_rank_step L e s, fun hland st => ?_⟩
  have hle : missionRank st ≤ 4 := by cases st <;> simp [missionRank]
  obtain ⟨st2, hmem, hrank⟩ := trace_covers L fuel es Loop.init (missionRank st)
    (by simp [Loop.init, missionRank]) (by rw [hland]; simpa [missionRank] using hle)
  rw [← missionRank_injective st2 st hrank]
  exact hmem

/-- C18: for every step `> 0` and every duration `T` the sampling loop ends:
there is a number `k` such that with more than `k` units of fuel the loop
returns, and the points it has appended are those of the sample times
`step, 2 step, .., k step`, in this order.  These times increase strictly,
all lie strictly below `T`, and `k` is the largest such number, since
`(k + 1) step` is not below `T`. -/
theorem C18_sampling_loop_terminates [FloorRing α] (c : Coeffs α) (step T : α)
    (hs : 0 < step) :
    ∃ k : ℕ,
      (∀ fuel : ℕ, k < fuel →
        sampling c step T fuel
          = some ((List.range k).map (fun i : ℕ => c.point (((i : α) + 1) * step)))) ∧
      (∀ i : ℕ, i < k → ((i : α) + 1) * step < T) ∧
      T ≤ ((k : α) + 1) * step ∧
      (∀ i j : ℕ, i < j → ((i : α) + 1) * step < ((j : α) + 1) * step) := by
  have hmono : ∀ i j : ℕ, i < j → ((i : α) + 1) * step < ((j : α) + 1) * step := by
    intro i j hij
    have : (i : α) < (j : α) := by exact_mod_cast hij
    nlinarith
  have hform : ∀ k : ℕ,
      (List.range k).map (fun i : ℕ => c.point (step + (i : α) * step))
        = (List.range k).map (fun i : ℕ => c.point (((i : α) + 1) * step)) := by
    intro k
    apply List.map_congr_left
    intro i _
    congr 1
    ring
  by_cases hT : 0 < T
  · have hpos : 0 < ⌈T / step⌉₊ := Nat.ceil_pos.mpr (div_pos hT hs)
    refine ⟨⌈T / step⌉₊ - 1, ?_, ?_, ?_, hmono⟩
    · intro fuel hf
      rw [sampling_eq c step T hs hT fuel (by omega), hform]
    · intro i hi
      have hi2 : i + 1 < ⌈T / step⌉₊ := by omega
      have hlt : ((i + 1 : ℕ) : α) < T / step := Nat.lt_ceil.mp hi2
      have := (lt_div_iff₀ hs).mp hlt
      push_cast at this
      exact this
    · have hle : T / step ≤ (⌈T / step⌉₊ : α) := Nat.le_ceil _
      have hcast : ((⌈T / step⌉₊ - 1 : ℕ) : α) = (⌈T / step⌉₊ : α) - 1 := by
        rw [Nat.cast_sub hpos]; simp
      have := (div_le_iff₀ hs).mp hle
      rw [hcast]
      linarith
  · have hT0 : T ≤ 0 := not_lt.mp hT
    refine ⟨0, ?_, ?_, ?_, hmono⟩
    · intro fuel hf
      have h := trajectoryLoop_eq c step T 0 fuel step [] hf
        (fun k hk => absurd hk (Nat.not_lt_zero k)) (by simp; linarith)
      simpa [sampling] using h
    · intro i hi
      exact absurd hi (Nat.not_lt_zero i)
    · simp
      linarith

/-- Witness of C18 at step `1` and duration `5/2`. -/
theorem C18_sampling_loop_terminates_witness :
    ∃ k : ℕ,
      (∀ fuel : ℕ, k < fuel →
        sampling (coeffs (envScenario ℚ) 5) 1 (5 / 2) fuel
          = some ((List.range k).map
              (fun i : ℕ => (coeffs (envScenario ℚ) 5).point (((i : ℚ) + 1) * 1)))) ∧
      (∀ i : ℕ, i < k → ((i : ℚ) + 1) * 1 < 5 / 2) ∧
      (5 / 2 : ℚ) ≤ ((k : ℚ) + 1) * 1 ∧
      (∀ i j : ℕ, i < j → ((i : ℚ) + 1) * 1 < ((j : ℚ) + 1) * 1) :=
  C18_sampling_loop_terminates (coeffs (envScenario ℚ) 5) 1 (5 / 2) (by norm_num)

/-- Scanning the characters of a token extends the current run. -/
theorem strtokScan_token (t : List Char) :
    ∀ (cur rest : List Char), t.all (fun c => !isDelim c) = true →
      strtokScan (t ++ rest) cur = strtokScan rest (cur ++ t) := by
  induction t with
  | nil => intro cur rest _; simp
  | cons c t ih =>
    intro cur rest h
    simp only [List.all_cons, Bool.and_eq_true, Bool.not_eq_true'] at h
    rw [List.cons_append, strtokScan, if_neg (by simp [h.1]), ih _ _ h.2]
    simp

/-- Delimiters scanned while no run is open are skipped. -/
theorem strtokScan_skip (d : List Char) :
    ∀ rest : List Char, d.all isDelim = true →
      strtokScan (d ++ rest) [] = strtokScan rest [] := by
  induction d with
  | nil => intro rest _; simp
  | cons c d ih =>
    intro rest h
    simp only [List.all_cons, Bool.and_eq_true] at h
    rw [List.cons_append, strtokScan, if_pos h.1, if_pos rfl]
    exact ih rest h.2

/-- A separator closes the open run. -/
theorem strtokScan_gap (d cur rest : List Char) (hcur : cur ≠ []) (hd : isGap d = true) :
    strtokScan (d ++ rest) cur = cur :: strtokScan rest [] := by
  cases d with
  | nil => simp [isGap] at hd
  | cons c d =>
    simp only [isGap, List.isEmpty_cons, Bool.not_false, Bool.true_and, List.all_cons,
      Bool.and_eq_true] at hd
    rw [List.cons_append, strtokScan, if_pos hd.1, if_neg hcur, strtokScan_skip d rest hd.2]

/-- At the end of the buffer, possibly after delimiters, the open run is the
last token. -/
theorem strtokScan_end (d cur : List Char) (hcur : cur ≠ []) (hd : d.all isDelim = true) :
    strtokScan d cur = [cur] := by
  cases d with
  | nil => simp [strtokScan, hcur]
  | cons c d =>
    simp only [List.all_cons, Bool.and_eq_true] at hd
    have hskip := strtokScan_skip d [] hd.2
    rw [List.append_nil] at hskip
    rw [strtokScan, if_pos hd.1, if_neg hcur, hskip]
    simp [strtokScan]

/-- A token is not the empty text. -/
theorem isToken_ne_nil (t : List Char) (h : isToken t = true) :
    t ≠ [] ∧ t.all (fun c => !isDelim c) = true := by
  cases t with
  | nil => simp [isToken] at h
  | cons c t =>
    simp only [isToken, List.isEmpty_cons, Bool.not_false, Bool.true_and] at h
    exact ⟨by simp, h⟩

/-- The tokens of a well-formed pair followed by more text are its two
coordinate tokens, then the tokens of that text. -/
theorem strtokScan_pair (p : PairText) (rest : List Char) (h : p.wf = true) :
    strtokScan (p.render ++ rest) [] = p.xtok :: p.ytok :: strtokScan rest [] := by
  simp only [PairText.wf, Bool.and_eq_true] at h
  obtain ⟨⟨⟨hx, hs⟩, hy⟩, hg⟩ := h
  obtain ⟨hx0, hx1⟩ := isToken_ne_nil _ hx
  obtain ⟨hy0, hy1⟩ := isToken_ne_nil _ hy
  simp only [PairText.render, List.append_assoc]
  rw [strtokScan_token _ _ _ hx1, List.nil_append, strtokScan_gap _ _ _ hx0 hs,
    strtokScan_token _ _ _ hy1, List.nil_append, strtokScan_gap _ _ _ hy0 hg]

/-- The tokens of a well-formed last pair are its two coordinate tokens. -/
theorem strtokScan_lastPair (p : PairText) (h : p.wfLast = true) :
    strtokScan p.render [] = [p.xtok, p.ytok] := by
  simp only [PairText.wfLast, Bool.and_eq_true] at h
  obtain ⟨⟨⟨hx, hs⟩, hy⟩, hg⟩ := h
  obtain ⟨hx0, hx1⟩ := isToken_ne_nil _ hx
  obtain ⟨hy0, hy1⟩ := isToken_ne_nil _ hy
  simp only [PairText.render, List.append_assoc]
  rw [strtokScan_token _ _ _ hx1, List.nil_append, strtokScan_gap _ _ _ hx0 hs,
    strtokScan_token _ _ _ hy1, List.nil_append, strtokScan_end _ _ hy0 hg]

/-- The goal loop on the text of well-formed pairs ends normally with the
coordinates of the last pair, whatever `goal_x`, `goal_y` held before. -/
theorem goalLoop_goalText {β : Type} (strtod : List Char → β) (last : PairText)
    (hlast : last.wfLast = true) :
    ∀ (front : List PairText) (gx gy : Option β), (∀ p ∈ front, p.wf = true) →
      goalLoop strtod (strtokScan (goalText front last) []) gx gy
        = .goals (some (strtod last.xtok)) (some (strtod last.ytok)) := by
  intro front
  induction front with
  | nil =>
    intro gx gy _
    simp [goalText, strtokScan_lastPair last hlast, goalLoop]
  | cons p front ih =>
    intro gx gy h
    have hp : p.wf = true := h p (List.mem_cons_self p front)
    have hrest : ∀ q ∈ front, q.wf = true := fun q hq => h q (List.mem_cons_of_mem p hq)
    have hsplit : goalText (p :: front) last = p.render ++ goalText front last := by
      simp [goalText]
    rw [hsplit, strtokScan_pair p _ hp]
    simp only [goalLoop]
    exact ih _ _ hrest

/-- The goal loop never ends in the `catch` branch. -/
theorem goalLoop_ne_invalidGoals {β : Type} (strtod : List Char → β) :
    ∀ (toks : List (List Char)) (gx gy : Option β),
      goalLoop strtod toks gx gy ≠ .invalidGoals
  | [], _, _ => by simp [goalLoop]
  | [_], _, _ => by simp [goalLoop]
  | _ :: _ :: rest, _, _ => by
    simp only [goalLoop]
    exact goalLoop_ne_invalidGoals strtod rest _ _

/-- C14: for every goal string made of `n ≥ 1` well-formed coordinate pairs
(tokens separated by spaces and commas) the parsing of lines 107-130 ends
normally with `goal_x`, `goal_y` the conversions of the two tokens of the last
pair; for the string `"1.0,2.0 3.5,4.5"`, with decimal conversion, the
destination is `(3.5, 4.5)`. -/
theorem C14_last_pair_wins {β : Type} (strtod : List Char → β) (front : List PairText)
    (last : PairText) (hfront : ∀ p ∈ front, p.wf = true) (hlast : last.wfLast = true) :
    parseGoals strtod (goalText front last)
      = .goals (some (strtod last.xtok)) (some (strtod last.ytok)) ∧
    goalParam strtod (some (goalText front last))
      = .goals (some (strtod last.xtok)) (some (strtod last.ytok)) ∧
    parseGoals (fun s => (strtodDecimal s : ℚ)) "1.0,2.0 3.5,4.5".toList
      = .goals (some (7 / 2)) (some (9 / 2)) := by
  have h := goalLoop_goalText strtod last hlast front none none hfront
  refine ⟨h, h, ?_⟩
  have htoks : strtokAll "1.0,2.0 3.5,4.5".toList
      = ["1.0".toList, "2.0".toList, "3.5".toList, "4.5".toList] := by decide
  rw [parseGoals, htoks]
  have h1 : (strtodDecimal "3.5".toList : ℚ) = 7 / 2 := by
    simp [strtodDecimal, digitsVal, digitVal, Char.isDigit]
    norm_num
  have h2 : (strtodDecimal "4.5".toList : ℚ) = 9 / 2 := by
    simp [strtodDecimal, digitsVal, digitVal, Char.isDigit]
    norm_num
  simp only [goalLoop]
  rw [h1, h2]

/-- Witness of C14 on the string `"1.0,2.0 3.5,4.5"`, read as the pair
`1.0,2.0` followed by a space and the last pair `3.5,4.5`. -/
theorem C14_last_pair_wins_witness :
    goalText [⟨"1.0".toList, ",".toList, "2.0".toList, " ".toList⟩]
        ⟨"3.5".toList, ",".toList, "4.5".toList, []⟩ = "1.0,2.0 3.5,4.5".toList ∧
    parseGoals (fun s => (strtodDecimal s : ℚ))
        (goalText [⟨"1.0".toList, ",".toList, "2.0".toList, " ".toList⟩]
          ⟨"3.5".toList, ",".toList, "4.5".toList, []⟩)
      = .goals (some (strtodDecimal "3.5".toList)) (some (strtodDecimal "4.5".toList)) :=
  ⟨by decide,
   (C14_last_pair_wins (fun s => (strtodDecimal s : ℚ))
      [⟨"1.0".toList, ",".toList, "2.0".toList, " ".toList⟩]
      ⟨"3.5".toList, ",".toList, "4.5".toList, []⟩ (by decide) (by decide)).1⟩

/-- C15 (evaluation of the code at the failing inputs): for the goal string
`"bad"`, and for the three-token string `"1.0,2.0 3.5"`, the loop passes the
null pointer to `strtod` (line 119); for `"bad,worse"` it ends normally with a
destination, the conversions of the two words, and decimal conversion turns
`"bad"` into `0`; for no goal string at all is the `catch` branch reached. -/
theorem C15_malformed_goals_not_rejected {β : Type} (strtod : List Char → β)
    (goal_str : List Char) :
    parseGoals strtod "bad".toList = .nullArgument ∧
    parseGoals strtod "1.0,2.0 3.5".toList = .nullArgument ∧
    parseGoals strtod "bad,worse".toList
      = .goals (some (strtod "bad".toList)) (some (strtod "worse".toList)) ∧
    (strtodDecimal "bad".toList : ℚ) = 0 ∧
    parseGoals strtod goal_str ≠ .invalidGoals := by
  have h1 : strtokAll "bad".toList = ["bad".toList] := by decide
  have h2 : strtokAll "1.0,2.0 3.5".toList = ["1.0".toList, "2.0".toList, "3.5".toList] := by
    decide
  have h3 : strtokAll "bad,worse".toList = ["bad".toList, "worse".toList] := by decide
  refine ⟨?_, ?_, ?_, ?_, goalLoop_ne_invalidGoals strtod _ none none⟩
  · rw [parseGoals, h1]; rfl
  · rw [parseGoals, h2]; rfl
  · rw [parseGoals, h3]; rfl
  · simp [strtodDecimal, digitsVal, digitVal, Char.isDigit]

/-- C16 (evaluation of the code at the scenario): with start `(0, 0)` at rest,
destination `(10, 0)` and speed `2` the planner computes `t_avg = 5`, and its
polynomials give the position `(-5/2, -5/2)` at `t = 5/2`, where the midpoint
of the leg is `(5, 0)`. -/
theorem C16_scenario_midpoint (L : Lib α) (hsqrt : L.sqrt 100 = 10) (fuel : ℕ) :
    (planner L fuel (envScenario α)).t_avg = 5 ∧
    (planner L fuel (envScenario α)).coeffs.point (5 / 2) = ⟨-5 / 2, -5 / 2⟩ ∧
    ((envScenario α).initial_x + (envScenario α).pos_goal.x) / 2 = 5 ∧
    ((envScenario α).initial_y + (envScenario α).pos_goal.y) / 2 = 0 := by
  have hT : t_avg L (envScenario α) = 5 := by
    have h100 : (10 : α) * 10 - 0 * 0 = 100 := by norm_num
    simp only [t_avg, envScenario, Env.default, h100, hsqrt]
    norm_num
  have h5 : (5 : α) ≠ 0 := by norm_num
  refine ⟨hT, ?_, ?_, ?_⟩
  · simp only [planner, coeffs, hT, Coeffs.point, Coeffs.fx, Coeffs.fy, b_2, b_3,
      a_2_closed_form 5 h5, a_3_closed_form 5 h5]
    norm_num [a_0, a_1, b_0, b_1, envScenario, Env.default]
  · norm_num [envScenario, Env.default]
  · norm_num [envScenario, Env.default]

/-- Witness of the C16 evaluation over the reals, with `sqrt` the real square
root. -/
theorem C16_scenario_midpoint_witness :
    (planner (Lib.mk Real.sqrt
      (fun x1 y1 x2 y2 => Real.sqrt ((x1 - x2) ^ 2 + (y1 - y2) ^ 2)))
      1 (envScenario ℝ)).t_avg = 5 ∧
    (planner (Lib.mk Real.sqrt
      (fun x1 y1 x2 y2 => Real.sqrt ((x1 - x2) ^ 2 + (y1 - y2) ^ 2)))
      1 (envScenario ℝ)).coeffs.point (5 / 2) = ⟨-5 / 2, -5 / 2⟩ :=
  have h : Real.sqrt 100 = 10 := by
    rw [show (100 : ℝ) = 10 ^ 2 by norm_num]
    exact Real.sqrt_sq (by norm_num)
  ⟨(C16_scenario_midpoint _ h 1).1, (C16_scenario_midpoint _ h 1).2.1⟩

/-- A call of `ros::spinOnce()` never sets a NaN mark: globals that hold
numbers keep holding numbers. -/
theorem spinOnce_received {β : Type} (g : Globals β) (sp : Spin β)
    (h : g.pose_nan = false ∧ g.tpose_nan = false ∧ g.vel_nan = false) :
    (spinOnce g sp).pose_nan = false ∧ (spinOnce g sp).tpose_nan = false ∧
      (spinOnce g sp).vel_nan = false := by
  obtain ⟨h1, h2, h3⟩ := h
  obtain ⟨pose, tpose, vel⟩ := sp
  cases pose <;> cases tpose <;> cases vel <;>
    simp [spinOnce, cbHPose, cbTPose, cbHVel, h1, h2, h3]

/-- If all snapshots have arrived when the main loop starts, they have arrived
in every iteration it executes. -/
theorem mainLoop_received (L : Lib α) (fuel : ℕ) :
    ∀ (evs : List (Event α)) (g : Globals α) (s : Loop),
      (g.pose_nan = false ∧ g.tpose_nan = false ∧ g.vel_nan = false) →
      ∀ p ∈ mainLoop L fuel evs g s,
        p.1.pose_nan = false ∧ p.1.tpose_nan = false ∧ p.1.vel_nan = false := by
  intro evs
  induction evs with
  | nil => intro g s _ p hp; simp [mainLoop] at hp
  | cons ev evs ih =>
    intro g s hg p hp
    have hread : (readGlobals g ev).pose_nan = false ∧ (readGlobals g ev).tpose_nan = false ∧
        (readGlobals g ev).vel_nan = false := spinOnce_received g ev.spin hg
    by_cases hgd : loopGuard ev = true
    · rw [mainLoop, if_pos hgd, List.mem_cons] at hp
      rcases hp with hp | hp
      · rw [hp]; exact hread
      · exact ih _ _ hread p hp
    · rw [mainLoop, if_neg hgd] at hp
      simp at hp

/-- Every iteration the main loop executes runs the planner on the globals
it read. -/
theorem mainLoop_plan (L : Lib α) (fuel : ℕ) :
    ∀ (evs : List (Event α)) (g : Globals α) (s : Loop),
      ∀ p ∈ mainLoop L fuel evs g s, p.2.plan = planner L fuel p.1.env := by
  intro evs
  induction evs with
  | nil => intro g s p hp; simp [mainLoop] at hp
  | cons ev evs ih =>
    intro g s p hp
    by_cases hgd : loopGuard ev = true
    · rw [mainLoop, if_pos hgd, List.mem_cons] at hp
      rcases hp with hp | hp
      · rw [hp]; rfl
      · exact ih _ _ p hp
    · rw [mainLoop, if_neg hgd] at hp
      simp at hp

/-- A latched guard stays latched on the later events. -/
theorem guardLatched_tail {β : Type} (ev : Event β) (evs : List (Event β))
    (h : guardLatched (ev :: evs) = true) : guardLatched evs = true := by
  cases evs with
  | nil => rfl
  | cons ev2 evs =>
    simp only [guardLatched, Bool.and_eq_true] at h
    exact h.2

/-- When the wait loop is left, either all three snapshots have arrived, or
the guard was read as false and, being latched, lets the main loop execute
no iteration. -/
theorem waitLoop_exit (L : Lib α) (fuel : ℕ) :
    ∀ (evs : List (Event α)) (g g2 : Globals α) (rest : List (Event α)),
      guardLatched evs = true → waitLoop evs g = some (g2, rest) →
      (g2.pose_nan = false ∧ g2.tpose_nan = false ∧ g2.vel_nan = false) ∨
      (∀ s : Loop, mainLoop L fuel rest g2 s = []) := by
  intro evs
  induction evs with
  | nil => intro g g2 rest _ h; simp [waitLoop] at h
  | cons ev evs ih =>
    intro g g2 rest hl h
    by_cases hc : (loopGuard ev && (g.pose_nan || g.tpose_nan || g.vel_nan)) = true
    · rw [waitLoop, if_pos hc] at h
      exact ih _ _ _ (guardLatched_tail ev evs hl) h
    · rw [waitLoop, if_neg hc] at h
      simp only [Option.some.injEq, Prod.mk.injEq] at h
      obtain ⟨hg, hrest⟩ := h
      subst hg hrest
      by_cases hgd : loopGuard ev = true
      · left
        simp only [hgd, Bool.true_and, Bool.not_eq_true, Bool.or_eq_false_iff] at hc
        exact ⟨hc.1.1, hc.1.2, hc.2⟩
      · right
        intro s
        cases evs with
        | nil => rfl
        | cons ev2 evs =>
          simp only [guardLatched, Bool.and_eq_true, Bool.or_eq_true,
            Bool.not_eq_true'] at hl
          have h2 : loopGuard ev2 = false := by
            rcases hl.1 with h1 | h1
            · exact absurd h1 hgd
            · exact h1
          rw [mainLoop, if_neg (by simp [h2])]

/-- C17: on every run in which the loop guard
`ros::ok() && nh.param("run", true)`, once read as false, is not read as true
again, the main loop executes no tick in which a snapshot is still NaN (not
yet received): in every executed tick `x`, `turtle_x` and `vx` hold received
numbers, and it is on those globals that the tick runs the planner.  The
wait loop of lines 150-151 is what keeps such ticks out; the body of the main
loop has no test of its own. -/
theorem C17_no_tick_on_missing_snapshot (L : Lib α) (fuel : ℕ) (config : Env α)
    (evs : List (Event α)) (hlatch : guardLatched evs = true) :
    (∀ p ∈ program L fuel config evs,
      p.1.pose_nan = false ∧ p.1.tpose_nan = false ∧ p.1.vel_nan = false) ∧
    (∀ p ∈ program L fuel config evs, p.2.plan = planner L fuel p.1.env) := by
  constructor
  · intro p hp
    unfold program at hp
    cases hw : waitLoop evs (Globals.initial config) with
    | none => rw [hw] at hp; simp at hp
    | some res =>
      obtain ⟨g, rest⟩ := res
      rw [hw] at hp
      simp only at hp
      rcases waitLoop_exit L fuel evs _ g rest hlatch hw with hrec | hnone
      · exact mainLoop_received L fuel rest g Loop.init hrec p hp
      · rw [hnone] at hp
        simp at hp
  · intro p hp
    unfold program at hp
    cases hw : waitLoop evs (Globals.initial config) with
    | none => rw [hw] at hp; simp at hp
    | some res =>
      obtain ⟨g, rest⟩ := res
      rw [hw] at hp
      exact mainLoop_plan L fuel rest g Loop.init p hp

/-- Witness of C17 on a run of four events that executes one tick of the main
loop, after all three snapshots have arrived. -/
theorem C17_no_tick_on_missing_snapshot_witness :
    guardLatched eventsExample = true ∧
    (program (Lib.mk id (fun _ _ _ _ => 0)) 1 (Env.default ℚ) eventsExample).length = 1 ∧
    (∀ p ∈ program (Lib.mk id (fun _ _ _ _ => 0)) 1 (Env.default ℚ) eventsExample,
      p.1.pose_nan = false ∧ p.1.tpose_nan = false ∧ p.1.vel_nan = false) :=
  ⟨by decide,
   by simp [program, waitLoop, mainLoop, loopGuard, eventsExample, Globals.initial, spinOnce,
        cbHPose, cbTPose, cbHVel],
   (C17_no_tick_on_missing_snapshot (Lib.mk id (fun _ _ _ _ => 0)) 1 (Env.default ℚ)
      eventsExample (by decide)).1⟩

end Hector
